import Mathlib

/-!
Verification of the JobOrchestrator Durable Object of cv-admin-worker.

The embedding below translates the orchestrator's state machine
(`src/unnamed/part_010`, class `JobOrchestrator`) and the webhook route of
`src/src/index.ts` into Lean. Timestamps (ISO strings produced by
`new Date().toISOString()`) are modelled as natural numbers passed
explicitly as `now`; the JS `Map` keyed by `jobId` is modelled as an
association list that preserves insertion order, matching JS `Map`
semantics. The `details` record of a webhook payload is modelled as an
association list of extra fields.
-/

namespace CvAdminWorker

/-- The `target` field of a job: `'both' | 'd1cv' | 'ai-agent'`. -/
inductive Target where
  | both
  | d1cv
  | aiAgent
deriving DecidableEq, Repr

/-- A sub-status of one target:
`'pending' | 'in-progress' | 'success' | 'failed' | 'skipped'`. -/
inductive SubStatus where
  | pending
  | inProgress
  | success
  | failed
  | skipped
deriving DecidableEq, Repr

/-- The derived overall status:
`'pending' | 'in-progress' | 'd1cv-done' | 'ai-done' | 'completed' | 'failed'`. -/
inductive OverallStatus where
  | pending
  | inProgress
  | d1cvDone
  | aiDone
  | completed
  | failed
deriving DecidableEq, Repr

/-- The service named by an update or webhook: `'d1cv' | 'ai-agent'`. -/
inductive Source where
  | d1cv
  | aiAgent
deriving DecidableEq, Repr

/-- The `status` parameter of `handleUpdateTargetStatus`:
`'in-progress' | 'success' | 'failed'`. -/
inductive UpdStatus where
  | inProgress
  | success
  | failed
deriving DecidableEq, Repr

/-- The `status` field of a webhook payload: `'success' | 'failed'`. -/
inductive WhStatus where
  | success
  | failed
deriving DecidableEq, Repr

/-- Interpretation of an update status as a sub-status value. -/
def UpdStatus.toSub : UpdStatus → SubStatus
  | .inProgress => SubStatus.inProgress
  | .success => SubStatus.success
  | .failed => SubStatus.failed

/-- Interpretation of a webhook status as a sub-status value. -/
def WhStatus.toSub : WhStatus → SubStatus
  | .success => SubStatus.success
  | .failed => SubStatus.failed

/-- The `d1cvResult` / `aiAgentResult` object
`{ success: boolean; message?; error?; ...extra }`; the fields spread from a
webhook's `details` record are modelled by the `extra` association list. -/
structure WebhookResult where
  success : Bool
  message : Option String
  error : Option String
  extra : List (String × String)
deriving DecidableEq, Repr

/-- The `DOJobStatus` record of `src/unnamed/part_010`. -/
structure DOJobStatus where
  jobId : String
  commitId : String
  target : Target
  overallStatus : OverallStatus
  d1cvStatus : SubStatus
  aiAgentStatus : SubStatus
  d1cvResult : Option WebhookResult := none
  aiAgentResult : Option WebhookResult := none
  startedAt : Nat
  updatedAt : Nat
  completedAt : Option Nat := none
deriving DecidableEq, Repr

/-- `JobOrchestrator.updateOverallStatus` (part_010, lines 283-302): the pure
status-derivation run after every sub-status mutation. -/
def updateOverallStatus (now : Nat) (job : DOJobStatus) : DOJobStatus :=
  let d1Done := job.d1cvStatus == SubStatus.success || job.d1cvStatus == SubStatus.skipped
  let aiDone := job.aiAgentStatus == SubStatus.success || job.aiAgentStatus == SubStatus.skipped
  let d1Failed := job.d1cvStatus == SubStatus.failed
  let aiFailed := job.aiAgentStatus == SubStatus.failed
  if d1Failed || aiFailed then
    { job with overallStatus := OverallStatus.failed, completedAt := some now }
  else if d1Done && aiDone then
    { job with overallStatus := OverallStatus.completed, completedAt := some now }
  else if d1Done && (job.target == Target.both) then
    { job with overallStatus := OverallStatus.d1cvDone }
  else if aiDone && (job.target == Target.both) then
    { job with overallStatus := OverallStatus.aiDone }
  else if job.d1cvStatus == SubStatus.inProgress || job.aiAgentStatus == SubStatus.inProgress then
    { job with overallStatus := OverallStatus.inProgress }
  else
    job

/-- Modelled from the spec: the status-derivation precedence chain of spec
section 4.2, written from the spec's pseudocode (targetA = d1cv,
targetB = ai-agent); `prev` is the overall status left unchanged by the
final `else` branch. Used only to compare against `updateOverallStatus`. -/
def specDeriveOverall (targetAStatus targetBStatus : SubStatus) (target : Target)
    (prev : OverallStatus) : OverallStatus :=
  let d1Done := targetAStatus == SubStatus.success || targetAStatus == SubStatus.skipped
  let aiDone := targetBStatus == SubStatus.success || targetBStatus == SubStatus.skipped
  let d1Failed := targetAStatus == SubStatus.failed
  let aiFailed := targetBStatus == SubStatus.failed
  if d1Failed || aiFailed then OverallStatus.failed
  else if d1Done && aiDone then OverallStatus.completed
  else if d1Done && (target == Target.both) then OverallStatus.d1cvDone
  else if aiDone && (target == Target.both) then OverallStatus.aiDone
  else if targetAStatus == SubStatus.inProgress || targetBStatus == SubStatus.inProgress then
    OverallStatus.inProgress
  else prev

/-- The in-memory job map `this.jobs : Map<string, DOJobStatus>`, modelled as
an association list in JS `Map` insertion order. -/
abbrev Store : Type := List (String × DOJobStatus)

/-- `Map.prototype.get`. -/
def mapGet (m : Store) (k : String) : Option DOJobStatus :=
  (m.find? (fun p => p.1 == k)).map Prod.snd

/-- `Map.prototype.set`: replaces the value in place when the key exists
(the entry keeps its position), otherwise appends a new entry. This also
models the JS handlers mutating the job object held by the map. -/
def mapSet (m : Store) (k : String) (v : DOJobStatus) : Store :=
  if m.any (fun p => p.1 == k) then
    m.map (fun p => if p.1 == k then (k, v) else p)
  else
    m ++ [(k, v)]

/-- The comparator of `persistJobs`: entry `a` may precede entry `b` when
`b` is not more recently updated (descending order by `updatedAt`). -/
def updGE (a b : String × DOJobStatus) : Prop :=
  b.2.updatedAt ≤ a.2.updatedAt

instance : DecidableRel updGE := fun a b => Nat.decLe b.2.updatedAt a.2.updatedAt

instance : IsTotal (String × DOJobStatus) updGE :=
  ⟨fun a b => Nat.le_total b.2.updatedAt a.2.updatedAt⟩

instance : IsTrans (String × DOJobStatus) updGE :=
  ⟨fun _ _ _ hab hbc => Nat.le_trans hbc hab⟩

/-- The stable descending sort by `updatedAt` performed by `persistJobs`
(JS `Array.prototype.sort` with comparator
`(a, b) => time(b.updatedAt) - time(a.updatedAt)` is a stable sort; insertion
sort with `updGE` is stable for the same comparator). -/
def sortJobsDesc (m : Store) : Store :=
  List.insertionSort updGE m

/-- `JobOrchestrator.persistJobs` (part_010, lines 327-337): before writing
to storage, when the map holds more than 100 jobs, keep only the 100 most
recently updated. -/
def persistJobs (m : Store) : Store :=
  if m.length > 100 then (sortJobsDesc m).take 100 else m

/-- The error returned when an operation references an unknown `jobId`
(the handlers' 404 `Job not found` response). -/
inductive OrcError where
  | notFound
deriving DecidableEq, Repr

/-- `JobOrchestrator.handleCreateJob` (part_010, lines 175-206): builds a
fresh job, stores it under `jobId` (overwriting any existing entry),
persists, and returns `success: true` with the job. -/
def handleCreateJob (now : Nat) (jobs : Store) (jobId commitId : String)
    (target : Target) : Store × DOJobStatus :=
  let job : DOJobStatus :=
    { jobId := jobId
      commitId := commitId
      target := target
      overallStatus := OverallStatus.pending
      d1cvStatus := if target == Target.aiAgent then SubStatus.skipped else SubStatus.pending
      aiAgentStatus := if target == Target.d1cv then SubStatus.skipped else SubStatus.pending
      startedAt := now
      updatedAt := now }
  (persistJobs (mapSet jobs jobId job), job)

/-- The mutation of one job performed by `handleUpdateTargetStatus`
(part_010, lines 221-230): set the named sub-status, stamp `updatedAt`,
then derive the overall status. -/
def applyUpdate (now : Nat) (job : DOJobStatus) (target : Source)
    (status : UpdStatus) : DOJobStatus :=
  let j :=
    match target with
    | Source.d1cv => { job with d1cvStatus := status.toSub }
    | Source.aiAgent => { job with aiAgentStatus := status.toSub }
  updateOverallStatus now { j with updatedAt := now }

/-- `JobOrchestrator.handleUpdateTargetStatus` (part_010, lines 208-241).
Returns the store together with the result; on an unknown `jobId` the store
is returned untouched with a `notFound` error. -/
def handleUpdateTargetStatus (now : Nat) (jobs : Store) (jobId : String)
    (target : Source) (status : UpdStatus) : Store × Except OrcError DOJobStatus :=
  match mapGet jobs jobId with
  | none => (jobs, Except.error OrcError.notFound)
  | some job =>
    let j := applyUpdate now job target status
    (persistJobs (mapSet jobs jobId j), Except.ok j)

/-- The `WebhookPayload` record of part_010 (lines 25-32); `details` is the
extra-field record, modelled as an association list. -/
structure WebhookPayload where
  jobId : String
  source : Source
  status : WhStatus
  message : Option String
  error : Option String
  details : List (String × String)
deriving DecidableEq, Repr

/-- The mutation of one job performed by `handleWebhook` (part_010, lines
253-265): set the named sub-status, store the result object — for `d1cv`
only `success`/`message`/`error`, for `ai-agent` additionally the spread
`...details` — stamp `updatedAt`, then derive the overall status. -/
def applyWebhookToJob (now : Nat) (job : DOJobStatus) (p : WebhookPayload) : DOJobStatus :=
  let j :=
    match p.source with
    | Source.d1cv =>
      { job with
          d1cvStatus := p.status.toSub
          d1cvResult := some
            { success := p.status == WhStatus.success
              message := p.message
              error := p.error
              extra := [] } }
    | Source.aiAgent =>
      { job with
          aiAgentStatus := p.status.toSub
          aiAgentResult := some
            { success := p.status == WhStatus.success
              message := p.message
              error := p.error
              extra := p.details } }
  updateOverallStatus now { j with updatedAt := now }

/-- `JobOrchestrator.handleWebhook` (part_010, lines 243-281). Returns the
store together with the result; on an unknown `jobId` the store is returned
untouched with a `notFound` error. -/
def handleWebhook (now : Nat) (jobs : Store) (p : WebhookPayload) :
    Store × Except OrcError DOJobStatus :=
  match mapGet jobs p.jobId with
  | none => (jobs, Except.error OrcError.notFound)
  | some job =>
    let j := applyWebhookToJob now job p
    (persistJobs (mapSet jobs p.jobId j), Except.ok j)

instance : DecidableEq (Except OrcError DOJobStatus) := fun a b =>
  match a, b with
  | Except.error x, Except.error y =>
    if h : x = y then isTrue (by rw [h]) else isFalse (fun hc => h (by injection hc))
  | Except.error _, Except.ok _ => isFalse (fun hc => Except.noConfusion hc)
  | Except.ok _, Except.error _ => isFalse (fun hc => Except.noConfusion hc)
  | Except.ok x, Except.ok y =>
    if h : x = y then isTrue (by rw [h]) else isFalse (fun hc => h (by injection hc))

/-- Outcome of the `POST /v2/webhook` route of `src/src/index.ts`: either a
401 `Invalid webhook signature` response, or the request forwarded to the
Durable Object's webhook handler. -/
inductive WebhookRouteResult where
  | invalidSignature
  | forwarded (r : Store × Except OrcError DOJobStatus)
deriving DecidableEq

/-- The `POST /v2/webhook` route of `src/src/index.ts` (lines 2778-2812).
`hmac secret body` stands for the platform primitive computing the
hex-encoded HMAC-SHA-256 of `body` under `secret`. The signature is checked
only when both a secret is configured and the `X-Webhook-Signature` header
is present; otherwise the request is forwarded to the state machine. -/
def webhookRoute (hmac : String → String → String) (secret : Option String)
    (signature : Option String) (body : String) (now : Nat) (jobs : Store)
    (p : WebhookPayload) : WebhookRouteResult :=
  match secret, signature with
  | some sec, some sig =>
    if sig == hmac sec body then WebhookRouteResult.forwarded (handleWebhook now jobs p)
    else WebhookRouteResult.invalidSignature
  | _, _ => WebhookRouteResult.forwarded (handleWebhook now jobs p)

end CvAdminWorker

namespace CvAdminWorker

/-- C1: for every job (hence every reachable triple of sub-statuses and
target), the overall status computed by `updateOverallStatus` is exactly the
value of the spec's section 4.2 precedence chain; in particular a failure on
either target wins over a done signal from the other in the same evaluation. -/
theorem updateOverallStatus_matches_spec (now : Nat) (job : DOJobStatus) :
    (updateOverallStatus now job).overallStatus =
      specDeriveOverall job.d1cvStatus job.aiAgentStatus job.target job.overallStatus := by
  rcases job with ⟨jid, cid, t, prev, a, b, r1, r2, s, u, c⟩
  cases a <;> cases b <;> cases t <;> rfl

/-- Derivation never touches the `d1cvStatus` field. -/
lemma updateOverallStatus_d1cvStatus (now : Nat) (j : DOJobStatus) :
    (updateOverallStatus now j).d1cvStatus = j.d1cvStatus := by
  rcases j with ⟨jid, cid, t, prev, a, b, r1, r2, s, u, c⟩
  cases a <;> cases b <;> cases t <;> rfl

/-- Derivation never touches the `aiAgentStatus` field. -/
lemma updateOverallStatus_aiAgentStatus (now : Nat) (j : DOJobStatus) :
    (updateOverallStatus now j).aiAgentStatus = j.aiAgentStatus := by
  rcases j with ⟨jid, cid, t, prev, a, b, r1, r2, s, u, c⟩
  cases a <;> cases b <;> cases t <;> rfl

/-- Derivation never touches the `d1cvResult` field. -/
lemma updateOverallStatus_d1cvResult (now : Nat) (j : DOJobStatus) :
    (updateOverallStatus now j).d1cvResult = j.d1cvResult := by
  rcases j with ⟨jid, cid, t, prev, a, b, r1, r2, s, u, c⟩
  cases a <;> cases b <;> cases t <;> rfl

/-- Derivation never touches the `aiAgentResult` field. -/
lemma updateOverallStatus_aiAgentResult (now : Nat) (j : DOJobStatus) :
    (updateOverallStatus now j).aiAgentResult = j.aiAgentResult := by
  rcases j with ⟨jid, cid, t, prev, a, b, r1, r2, s, u, c⟩
  cases a <;> cases b <;> cases t <;> rfl

/-- Derivation either leaves `completedAt` alone or stamps it with `now`. -/
lemma updateOverallStatus_completedAt_or (now : Nat) (j : DOJobStatus) :
    (updateOverallStatus now j).completedAt = j.completedAt ∨
      (updateOverallStatus now j).completedAt = some now := by
  rcases j with ⟨jid, cid, t, prev, a, b, r1, r2, s, u, c⟩
  cases a <;> cases b <;> cases t <;> first | exact Or.inl rfl | exact Or.inr rfl

/-- A failed `d1cvStatus` forces the derived overall status to `failed`. -/
lemma updateOverallStatus_failed_left (now : Nat) (j : DOJobStatus)
    (h : j.d1cvStatus = SubStatus.failed) :
    (updateOverallStatus now j).overallStatus = OverallStatus.failed := by
  simp [updateOverallStatus, h]

/-- A failed `aiAgentStatus` forces the derived overall status to `failed`. -/
lemma updateOverallStatus_failed_right (now : Nat) (j : DOJobStatus)
    (h : j.aiAgentStatus = SubStatus.failed) :
    (updateOverallStatus now j).overallStatus = OverallStatus.failed := by
  simp [updateOverallStatus, h]

/-- C5: every `create(jobId, commitId, target)` call yields a job with
overall status `pending`, `d1cvStatus` pending unless the target excludes
d1cv (target `ai-agent`, then skipped), and `aiAgentStatus` pending unless
the target excludes the AI agent (target `d1cv`, then skipped). -/
theorem handleCreateJob_init_status (now : Nat) (jobs : Store)
    (jobId commitId : String) (t : Target) :
    (handleCreateJob now jobs jobId commitId t).2.overallStatus = OverallStatus.pending ∧
    (handleCreateJob now jobs jobId commitId t).2.d1cvStatus =
      (if t = Target.aiAgent then SubStatus.skipped else SubStatus.pending) ∧
    (handleCreateJob now jobs jobId commitId t).2.aiAgentStatus =
      (if t = Target.d1cv then SubStatus.skipped else SubStatus.pending) := by
  cases t <;> exact ⟨rfl, rfl, rfl⟩

/-- C7: for an unknown `jobId`, both `updateTargetStatus` and the webhook
operation return `NotFound` and leave the store untouched. -/
theorem unknown_job_not_found (now : Nat) (jobs : Store) (jobId : String)
    (h : mapGet jobs jobId = none) :
    (∀ tgt st, handleUpdateTargetStatus now jobs jobId tgt st =
      (jobs, Except.error OrcError.notFound)) ∧
    (∀ src st msg err det, handleWebhook now jobs ⟨jobId, src, st, msg, err, det⟩ =
      (jobs, Except.error OrcError.notFound)) := by
  refine ⟨fun tgt st => ?_, fun src st msg err det => ?_⟩ <;>
    simp [handleUpdateTargetStatus, handleWebhook, h]

theorem unknown_job_not_found_witness :
    mapGet [] "j9" = none ∧
      handleUpdateTargetStatus 0 [] "j9" Source.d1cv UpdStatus.success =
        ([], Except.error OrcError.notFound) :=
  ⟨rfl, (unknown_job_not_found 0 [] "j9" rfl).1 Source.d1cv UpdStatus.success⟩

/-- C3: once one sub-status is `failed`, any later update or webhook that
sets only the other sub-status leaves the overall status `failed`. -/
theorem failure_sticky (now : Nat) (jobs : Store) (jobId : String)
    (job : DOJobStatus) (hget : mapGet jobs jobId = some job) :
    (job.d1cvStatus = SubStatus.failed →
      (∀ st j', (handleUpdateTargetStatus now jobs jobId Source.aiAgent st).2 = Except.ok j' →
        j'.overallStatus = OverallStatus.failed) ∧
      (∀ st msg err det j',
        (handleWebhook now jobs ⟨jobId, Source.aiAgent, st, msg, err, det⟩).2 = Except.ok j' →
        j'.overallStatus = OverallStatus.failed)) ∧
    (job.aiAgentStatus = SubStatus.failed →
      (∀ st j', (handleUpdateTargetStatus now jobs jobId Source.d1cv st).2 = Except.ok j' →
        j'.overallStatus = OverallStatus.failed) ∧
      (∀ st msg err det j',
        (handleWebhook now jobs ⟨jobId, Source.d1cv, st, msg, err, det⟩).2 = Except.ok j' →
        j'.overallStatus = OverallStatus.failed)) := by
  constructor
  · intro hf
    constructor
    · intro st j' hok
      simp only [handleUpdateTargetStatus, hget] at hok
      injection hok with hj
      subst hj
      exact updateOverallStatus_failed_left now _ hf
    · intro st msg err det j' hok
      simp only [handleWebhook, hget] at hok
      injection hok with hj
      subst hj
      exact updateOverallStatus_failed_left now _ hf
  · intro hf
    constructor
    · intro st j' hok
      simp only [handleUpdateTargetStatus, hget] at hok
      injection hok with hj
      subst hj
      exact updateOverallStatus_failed_right now _ hf
    · intro st msg err det j' hok
      simp only [handleWebhook, hget] at hok
      injection hok with hj
      subst hj
      exact updateOverallStatus_failed_right now _ hf

/-- The store of the C3 witness run: job `j1` created for both targets,
then d1cv reported failed. -/
def c3Store : Store :=
  (handleUpdateTargetStatus 1 (handleCreateJob 0 [] "j1" "c1" Target.both).1
    "j1" Source.d1cv UpdStatus.failed).1

/-- The stored job of the C3 witness run. -/
def c3Job : DOJobStatus :=
  { jobId := "j1", commitId := "c1", target := Target.both
    overallStatus := OverallStatus.failed
    d1cvStatus := SubStatus.failed, aiAgentStatus := SubStatus.pending
    startedAt := 0, updatedAt := 1, completedAt := some 1 }

theorem failure_sticky_witness :
    mapGet c3Store "j1" = some c3Job ∧ c3Job.d1cvStatus = SubStatus.failed ∧
      (applyUpdate 2 c3Job Source.aiAgent UpdStatus.success).overallStatus =
        OverallStatus.failed :=
  ⟨by decide, by decide,
    ((failure_sticky 2 c3Store "j1" c3Job (by decide)).1 (by decide)).1
      UpdStatus.success (applyUpdate 2 c3Job Source.aiAgent UpdStatus.success) (by decide)⟩

/-- Store of the C2 run after job `j1` (target both) completed: d1cv
succeeded at time 1 and the AI agent at time 2, so `completedAt = some 2`. -/
def c2Store : Store :=
  (handleUpdateTargetStatus 2
    (handleUpdateTargetStatus 1 (handleCreateJob 0 [] "j1" "c1" Target.both).1
      "j1" Source.d1cv UpdStatus.success).1
    "j1" Source.aiAgent UpdStatus.success).1

/-- C2 counterexample: on the completed job of `c2Store` (with
`completedAt = some 2`), setting `d1cv` back to in-progress at time 3 moves
the overall status to `ai-done`, outside `{completed, failed}`, and
re-reporting the AI agent's success at time 3 overwrites `completedAt` with
`some 3`. Both conjuncts of the claimed terminal immutability fail. -/
theorem terminal_not_immutable_cex :
    (mapGet c2Store "j1").map DOJobStatus.completedAt = some (some 2) ∧
    (mapGet c2Store "j1").map DOJobStatus.overallStatus = some OverallStatus.completed ∧
    ((handleUpdateTargetStatus 3 c2Store "j1" Source.d1cv UpdStatus.inProgress).2.toOption).map
      DOJobStatus.overallStatus = some OverallStatus.aiDone ∧
    ((handleUpdateTargetStatus 3 c2Store "j1" Source.aiAgent UpdStatus.success).2.toOption).map
      DOJobStatus.completedAt = some (some 3) := by
  decide

/-- C2 amended: once `completedAt` is set it is never cleared — every later
update or webhook leaves it either unchanged or overwritten with the
operation's own timestamp — but it is not immutable, and the overall status
is not confined to `{completed, failed}` (see `terminal_not_immutable_cex`). -/
theorem completedAt_never_cleared (now : Nat) (jobs : Store) (jobId : String)
    (job : DOJobStatus) (t0 : Nat) (hget : mapGet jobs jobId = some job)
    (hset : job.completedAt = some t0) :
    (∀ tgt st j', (handleUpdateTargetStatus now jobs jobId tgt st).2 = Except.ok j' →
      j'.completedAt = some t0 ∨ j'.completedAt = some now) ∧
    (∀ p j', p.jobId = jobId → (handleWebhook now jobs p).2 = Except.ok j' →
      j'.completedAt = some t0 ∨ j'.completedAt = some now) := by
  constructor
  · intro tgt st j' hok
    simp only [handleUpdateTargetStatus, hget] at hok
    injection hok with hj
    subst hj
    unfold applyUpdate
    rcases updateOverallStatus_completedAt_or now
        { (match tgt with
           | Source.d1cv => { job with d1cvStatus := st.toSub }
           | Source.aiAgent => { job with aiAgentStatus := st.toSub }) with
          updatedAt := now } with h | h
    · left
      rw [h]
      cases tgt <;> exact hset
    · right
      exact h
  · intro p j' hid hok
    subst hid
    simp only [handleWebhook, hget] at hok
    injection hok with hj
    subst hj
    unfold applyWebhookToJob
    rcases updateOverallStatus_completedAt_or now
        { (match p.source with
           | Source.d1cv =>
             { job with
                 d1cvStatus := p.status.toSub
                 d1cvResult := some
                   { success := p.status == WhStatus.success
                     message := p.message
                     error := p.error
                     extra := [] } }
           | Source.aiAgent =>
             { job with
                 aiAgentStatus := p.status.toSub
                 aiAgentResult := some
                   { success := p.status == WhStatus.success
                     message := p.message
                     error := p.error
                     extra := p.details } }) with
          updatedAt := now } with h | h
    · left
      rw [h]
      cases hs : p.source <;> simp [hs] <;> exact hset
    · right
      exact h

/-- The completed job stored in `c2Store`. -/
def c2Job : DOJobStatus :=
  { jobId := "j1", commitId := "c1", target := Target.both
    overallStatus := OverallStatus.completed
    d1cvStatus := SubStatus.success, aiAgentStatus := SubStatus.success
    startedAt := 0, updatedAt := 2, completedAt := some 2 }

theorem completedAt_never_cleared_witness :
    mapGet c2Store "j1" = some c2Job ∧ c2Job.completedAt = some 2 ∧
      ((applyUpdate 3 c2Job Source.d1cv UpdStatus.inProgress).completedAt = some 2 ∨
        (applyUpdate 3 c2Job Source.d1cv UpdStatus.inProgress).completedAt = some 3) :=
  ⟨by decide, by decide,
    (completedAt_never_cleared 3 c2Store "j1" c2Job 2 (by decide) (by decide)).1
      Source.d1cv UpdStatus.inProgress
      (applyUpdate 3 c2Job Source.d1cv UpdStatus.inProgress) (by decide)⟩

/-- Store of the C4 and C8 runs: a fresh job `j1` for both targets. -/
def freshBothStore : Store := (handleCreateJob 0 [] "j1" "c1" Target.both).1

/-- The payload of the C4 counterexample: a failure report for d1cv. -/
def c4Payload : WebhookPayload :=
  { jobId := "j1", source := Source.d1cv, status := WhStatus.failed
    message := none, error := none, details := [] }

/-- C4 counterexample: with a shared secret configured but the
`X-Webhook-Signature` header absent, the `/v2/webhook` route performs no
verification at all — the request is forwarded to the state machine, the
job is looked up, and its state changes to `failed`. The hmac argument is a
stand-in; the missing-signature branch never evaluates it. -/
theorem missing_signature_forwarded_cex :
    webhookRoute (fun s b => s ++ b) (some "secret") none "rawbody" 1 freshBothStore
        c4Payload =
      WebhookRouteResult.forwarded (handleWebhook 1 freshBothStore c4Payload) ∧
    ((handleWebhook 1 freshBothStore c4Payload).2.toOption).map DOJobStatus.overallStatus =
      some OverallStatus.failed ∧
    (handleWebhook 1 freshBothStore c4Payload).1 ≠ freshBothStore := by
  decide

/-- C4 amended: when a secret is configured and the request carries a
signature, the route rejects a signature different from the hex HMAC of the
raw body with an authentication error, before any job lookup and without
touching any job state, and forwards a matching one; a request with no
signature header, however, bypasses verification and reaches the state
machine. -/
theorem webhookRoute_signature_check (hmac : String → String → String)
    (secret sig body : String) (now : Nat) (jobs : Store) (p : WebhookPayload) :
    (sig ≠ hmac secret body →
      webhookRoute hmac (some secret) (some sig) body now jobs p =
        WebhookRouteResult.invalidSignature) ∧
    (sig = hmac secret body →
      webhookRoute hmac (some secret) (some sig) body now jobs p =
        WebhookRouteResult.forwarded (handleWebhook now jobs p)) ∧
    webhookRoute hmac (some secret) none body now jobs p =
      WebhookRouteResult.forwarded (handleWebhook now jobs p) := by
  refine ⟨fun h => ?_, fun h => ?_, rfl⟩
  · simp [webhookRoute, h]
  · simp [webhookRoute, h]

theorem webhookRoute_signature_check_witness :
    "bad" ≠ (fun s b => s ++ b) "secret" "rawbody" ∧
      webhookRoute (fun s b => s ++ b) (some "secret") (some "bad") "rawbody" 1
          freshBothStore c4Payload =
        WebhookRouteResult.invalidSignature :=
  ⟨by decide,
    (webhookRoute_signature_check (fun s b => s ++ b) "secret" "bad" "rawbody" 1
      freshBothStore c4Payload).1 (by decide)⟩

/-- The payload of the C8 counterexample: a d1cv success report carrying a
nonempty `details` record. -/
def c8Payload : WebhookPayload :=
  { jobId := "j1", source := Source.d1cv, status := WhStatus.success
    message := some "m", error := none, details := [("k", "v")] }

/-- C8 counterexample: a webhook from source `d1cv` stores a result object
containing only `success`, `message` and `error` — the nonempty `details`
record of the payload is discarded instead of being merged in. -/
theorem d1cv_result_drops_details_cex :
    ((handleWebhook 1 freshBothStore c8Payload).2.toOption).map DOJobStatus.d1cvResult =
      some (some { success := true, message := some "m", error := none, extra := [] }) ∧
    c8Payload.details = [("k", "v")] ∧
    ([] : List (String × String)) ≠ [("k", "v")] := by
  decide

/-- C8 amended: on an existing job, a webhook from source `ai-agent` stores
the full result object with every extra field of `details` merged in, but a
webhook from source `d1cv` stores only `success`, `message` and `error`,
discarding `details`. -/
theorem webhook_result_fields (now : Nat) (jobs : Store) (p : WebhookPayload)
    (job : DOJobStatus) (hget : mapGet jobs p.jobId = some job) :
    ∃ j', (handleWebhook now jobs p).2 = Except.ok j' ∧
      (p.source = Source.d1cv →
        j'.d1cvResult = some
          { success := p.status == WhStatus.success, message := p.message
            error := p.error, extra := [] }) ∧
      (p.source = Source.aiAgent →
        j'.aiAgentResult = some
          { success := p.status == WhStatus.success, message := p.message
            error := p.error, extra := p.details }) := by
  refine ⟨applyWebhookToJob now job p, ?_, fun hs => ?_, fun hs => ?_⟩
  · simp only [handleWebhook, hget]
  · unfold applyWebhookToJob
    rw [updateOverallStatus_d1cvResult]
    simp [hs]
  · unfold applyWebhookToJob
    rw [updateOverallStatus_aiAgentResult]
    simp [hs]

/-- A successful lookup means some entry of the map bears the key. -/
lemma any_of_mapGet (m : Store) (k : String) (v : DOJobStatus)
    (h : mapGet m k = some v) : m.any (fun p => p.1 == k) = true := by
  induction m with
  | nil => simp [mapGet] at h
  | cons a tl ih =>
    by_cases hk : (a.1 == k) = true
    · simp [List.any_cons, hk]
    · have hk' : (a.1 == k) = false := Bool.eq_false_iff.2 hk
      rw [List.any_cons, hk', Bool.false_or]
      apply ih
      simpa [mapGet, List.find?, hk'] using h

/-- Replacing the entry bearing an existing key makes lookup return the new
value. -/
lemma mapGet_replace (m : Store) (k : String) (v : DOJobStatus)
    (h : m.any (fun p => p.1 == k) = true) :
    mapGet (m.map (fun p => if p.1 == k then (k, v) else p)) k = some v := by
  induction m with
  | nil => cases h
  | cons a tl ih =>
    by_cases hk : (a.1 == k) = true
    · simp [mapGet, List.find?, hk]
    · have hk' : (a.1 == k) = false := Bool.eq_false_iff.2 hk
      have h' : tl.any (fun p => p.1 == k) = true := by
        rw [List.any_cons, hk', Bool.false_or] at h
        exact h
      have hih := ih h'
      simp only [mapGet] at hih ⊢
      simp only [List.map_cons, List.find?, hk', if_neg (Bool.eq_false_iff.1 hk' ∘ of_decide_eq_true ∘ fun x => x)]
      simpa [List.find?, hk'] using hih

/-- Appending a fresh entry makes lookup of its key return its value when
no earlier entry bears the key. -/
lemma mapGet_append_new (m : Store) (k : String) (v : DOJobStatus)
    (h : m.any (fun p => p.1 == k) = false) :
    mapGet (m ++ [(k, v)]) k = some v := by
  induction m with
  | nil => simp [mapGet, List.find?]
  | cons a tl ih =>
    rw [List.any_cons, Bool.or_eq_false_iff] at h
    simp only [mapGet, List.cons_append, List.find?, h.1]
    exact ih h.2

/-- Lookup after `mapSet` of the same key returns the new value. -/
lemma mapGet_mapSet_self (m : Store) (k : String) (v : DOJobStatus) :
    mapGet (mapSet m k v) k = some v := by
  unfold mapSet
  by_cases h : m.any (fun p => p.1 == k) = true
  · rw [if_pos h]
    exact mapGet_replace m k v h
  · have h' : m.any (fun p => p.1 == k) = false := Bool.eq_false_iff.2 h
    rw [if_neg (by simp [h'])]
    exact mapGet_append_new m k v h'

/-- A store within the retention cap is persisted unchanged. -/
lemma persistJobs_eq_of_le (m : Store) (h : m.length ≤ 100) : persistJobs m = m := by
  unfold persistJobs
  rw [if_neg (Nat.not_lt.2 h)]

/-- C6: a `create` call whose `jobId` already exists does not fail; it
silently overwrites the stored job with a freshly initialized one (overall
status pending, sub-statuses re-derived from the target, new `startedAt`)
and returns that job as its success value. -/
theorem duplicate_create_overwrites (now : Nat) (jobs : Store)
    (jobId commitId : String) (t : Target) (old : DOJobStatus)
    (hlen : jobs.length ≤ 100) (hold : mapGet jobs jobId = some old) :
    (handleCreateJob now jobs jobId commitId t).2 =
      { jobId := jobId, commitId := commitId, target := t
        overallStatus := OverallStatus.pending
        d1cvStatus := if t == Target.aiAgent then SubStatus.skipped else SubStatus.pending
        aiAgentStatus := if t == Target.d1cv then SubStatus.skipped else SubStatus.pending
        startedAt := now, updatedAt := now } ∧
    mapGet (handleCreateJob now jobs jobId commitId t).1 jobId =
      some ((handleCreateJob now jobs jobId commitId t).2) := by
  have hany := any_of_mapGet jobs jobId old hold
  refine ⟨rfl, ?_⟩
  show mapGet (persistJobs (mapSet jobs jobId _)) jobId = _
  unfold mapSet
  rw [if_pos hany]
  rw [persistJobs_eq_of_le _ (by rw [List.length_map]; exact hlen)]
  exact mapGet_replace jobs jobId _ hany

theorem duplicate_create_overwrites_witness :
    freshBothStore.length ≤ 100 ∧
      mapGet freshBothStore "j1" = some (handleCreateJob 0 [] "j1" "c1" Target.both).2 ∧
      mapGet (handleCreateJob 7 freshBothStore "j1" "c9" Target.d1cv).1 "j1" =
        some ((handleCreateJob 7 freshBothStore "j1" "c9" Target.d1cv).2) :=
  ⟨by decide, by decide,
    (duplicate_create_overwrites 7 freshBothStore "j1" "c9" Target.d1cv
      (handleCreateJob 0 [] "j1" "c1" Target.both).2 (by decide) (by decide)).2⟩

/-- An update naming the AI agent sets exactly that sub-status. -/
lemma applyUpdate_sets_aiAgent (now : Nat) (job : DOJobStatus) (st : UpdStatus) :
    (applyUpdate now job Source.aiAgent st).aiAgentStatus = st.toSub := by
  unfold applyUpdate
  rw [updateOverallStatus_aiAgentStatus]

/-- An update naming d1cv sets exactly that sub-status. -/
lemma applyUpdate_sets_d1cv (now : Nat) (job : DOJobStatus) (st : UpdStatus) :
    (applyUpdate now job Source.d1cv st).d1cvStatus = st.toSub := by
  unfold applyUpdate
  rw [updateOverallStatus_d1cvStatus]

/-- A webhook naming the AI agent sets exactly that sub-status. -/
lemma applyWebhookToJob_sets_aiAgent (now : Nat) (job : DOJobStatus)
    (p : WebhookPayload) (hs : p.source = Source.aiAgent) :
    (applyWebhookToJob now job p).aiAgentStatus = p.status.toSub := by
  unfold applyWebhookToJob
  rw [updateOverallStatus_aiAgentStatus]
  simp [hs]

/-- A webhook naming d1cv sets exactly that sub-status. -/
lemma applyWebhookToJob_sets_d1cv (now : Nat) (job : DOJobStatus)
    (p : WebhookPayload) (hs : p.source = Source.d1cv) :
    (applyWebhookToJob now job p).d1cvStatus = p.status.toSub := by
  unfold applyWebhookToJob
  rw [updateOverallStatus_d1cvStatus]
  simp [hs]

/-- C10: neither update nor webhook handling consults the job's `target`
field — for a job whose target excludes one service (that service's
sub-status being `skipped`), an update or webhook naming the excluded
service still overwrites the skipped sub-status with the given value, and a
`failed` report for the excluded service makes the overall status `failed`. -/
theorem excluded_target_overwritten (now : Nat) (jobs : Store) (jobId : String)
    (job : DOJobStatus) (hget : mapGet jobs jobId = some job) :
    (job.target = Target.d1cv → job.aiAgentStatus = SubStatus.skipped →
      (∀ st j', (handleUpdateTargetStatus now jobs jobId Source.aiAgent st).2 = Except.ok j' →
        j'.aiAgentStatus = st.toSub ∧
          (st = UpdStatus.failed → j'.overallStatus = OverallStatus.failed)) ∧
      (∀ st msg err det j',
        (handleWebhook now jobs ⟨jobId, Source.aiAgent, st, msg, err, det⟩).2 = Except.ok j' →
        j'.aiAgentStatus = st.toSub ∧
          (st = WhStatus.failed → j'.overallStatus = OverallStatus.failed))) ∧
    (job.target = Target.aiAgent → job.d1cvStatus = SubStatus.skipped →
      (∀ st j', (handleUpdateTargetStatus now jobs jobId Source.d1cv st).2 = Except.ok j' →
        j'.d1cvStatus = st.toSub ∧
          (st = UpdStatus.failed → j'.overallStatus = OverallStatus.failed)) ∧
      (∀ st msg err det j',
        (handleWebhook now jobs ⟨jobId, Source.d1cv, st, msg, err, det⟩).2 = Except.ok j' →
        j'.d1cvStatus = st.toSub ∧
          (st = WhStatus.failed → j'.overallStatus = OverallStatus.failed))) := by
  constructor
  · intro htarget hskip
    constructor
    · intro st j' hok
      simp only [handleUpdateTargetStatus, hget] at hok
      injection hok with hj
      subst hj
      refine ⟨applyUpdate_sets_aiAgent now job st, fun hst => ?_⟩
      subst hst
      exact updateOverallStatus_failed_right now _ rfl
    · intro st msg err det j' hok
      simp only [handleWebhook, hget] at hok
      injection hok with hj
      subst hj
      refine ⟨applyWebhookToJob_sets_aiAgent now job _ rfl, fun hst => ?_⟩
      subst hst
      exact updateOverallStatus_failed_right now _ rfl
  · intro htarget hskip
    constructor
    · intro st j' hok
      simp only [handleUpdateTargetStatus, hget] at hok
      injection hok with hj
      subst hj
      refine ⟨applyUpdate_sets_d1cv now job st, fun hst => ?_⟩
      subst hst
      exact updateOverallStatus_failed_left now _ rfl
    · intro st msg err det j' hok
      simp only [handleWebhook, hget] at hok
      injection hok with hj
      subst hj
      refine ⟨applyWebhookToJob_sets_d1cv now job _ rfl, fun hst => ?_⟩
      subst hst
      exact updateOverallStatus_failed_left now _ rfl

/-- Store of the C10 witness run: job `j2` created for target `d1cv` only,
so its AI agent sub-status starts `skipped`. -/
def c10Store : Store := (handleCreateJob 0 [] "j2" "c2" Target.d1cv).1

/-- The stored job of the C10 witness run. -/
def c10Job : DOJobStatus :=
  { jobId := "j2", commitId := "c2", target := Target.d1cv
    overallStatus := OverallStatus.pending
    d1cvStatus := SubStatus.pending, aiAgentStatus := SubStatus.skipped
    startedAt := 0, updatedAt := 0 }

theorem excluded_target_overwritten_witness :
    mapGet c10Store "j2" = some c10Job ∧ c10Job.target = Target.d1cv ∧
      c10Job.aiAgentStatus = SubStatus.skipped ∧
      (applyUpdate 1 c10Job Source.aiAgent UpdStatus.failed).aiAgentStatus =
          UpdStatus.failed.toSub ∧
        (applyUpdate 1 c10Job Source.aiAgent UpdStatus.failed).overallStatus =
          OverallStatus.failed :=
  ⟨by decide, by decide, by decide, by
    have h :=
      ((excluded_target_overwritten 1 c10Store "j2" c10Job (by decide)).1
        (by decide) (by decide)).1 UpdStatus.failed
        (applyUpdate 1 c10Job Source.aiAgent UpdStatus.failed) (by decide)
    exact ⟨h.1, h.2 rfl⟩⟩

theorem webhook_result_fields_witness :
    mapGet freshBothStore c8Payload.jobId = some (handleCreateJob 0 [] "j1" "c1" Target.both).2 ∧
      ∃ j', (handleWebhook 1 freshBothStore c8Payload).2 = Except.ok j' ∧
        (c8Payload.source = Source.d1cv →
          j'.d1cvResult = some
            { success := c8Payload.status == WhStatus.success, message := c8Payload.message
              error := c8Payload.error, extra := [] }) ∧
        (c8Payload.source = Source.aiAgent →
          j'.aiAgentResult = some
            { success := c8Payload.status == WhStatus.success, message := c8Payload.message
              error := c8Payload.error, extra := c8Payload.details }) :=
  ⟨by decide,
    webhook_result_fields 1 freshBothStore c8Payload
      (handleCreateJob 0 [] "j1" "c1" Target.both).2 (by decide)⟩

/-- Sequential job creation: `insertN n` performs `n` `create` calls, the
i-th at time `i` with jobId `Nat.repr i`, each persisting the store as in
the source. -/
def insertN : Nat → Store
  | 0 => []
  | n + 1 => (handleCreateJob n (insertN n) (Nat.repr n) "c" Target.both).1

/-- A raw store of 101 distinct jobs, used to witness the over-cap branch of
the retention theorem. -/
def bigStore : Store :=
  (List.range 101).map (fun i =>
    (Nat.repr i,
      { jobId := Nat.repr i, commitId := "c", target := Target.both
        overallStatus := OverallStatus.pending
        d1cvStatus := SubStatus.pending, aiAgentStatus := SubStatus.pending
        startedAt := i, updatedAt := i }))

set_option maxRecDepth 100000 in
/-- C9: persisting never leaves more than 100 jobs; when the store exceeds
the cap, exactly the first 100 entries of the stable descending sort by
`updatedAt` are retained, and every evicted entry is no more recently
updated than every retained one; concretely, 150 sequential inserts leave
exactly the 100 jobs with `startedAt` 149 down to 50 — the 50
oldest-by-`updatedAt` are evicted. -/
theorem retention_bound (jobs : Store) :
    (persistJobs jobs).length ≤ 100 ∧
    (100 < jobs.length →
      persistJobs jobs = (sortJobsDesc jobs).take 100 ∧
      ∀ p ∈ (sortJobsDesc jobs).take 100, ∀ q ∈ (sortJobsDesc jobs).drop 100,
        q.2.updatedAt ≤ p.2.updatedAt) ∧
    (insertN 150).length = 100 ∧
    (insertN 150).map (fun e => e.2.startedAt) = (List.range 100).map (fun i => 149 - i) := by
  refine ⟨?_, fun h => ⟨?_, fun p hp q hq => ?_⟩, by decide, by decide⟩
  · unfold persistJobs
    by_cases h : jobs.length > 100
    · rw [if_pos h, List.length_take]
      exact Nat.min_le_left 100 _
    · rw [if_neg h]
      exact Nat.le_of_not_lt h
  · unfold persistJobs
    rw [if_pos h]
  · have hs : List.Sorted updGE (sortJobsDesc jobs) :=
      List.sorted_insertionSort updGE jobs
    exact hs.rel_of_mem_take_of_mem_drop hp hq

theorem retention_bound_witness :
    100 < bigStore.length ∧ persistJobs bigStore = (sortJobsDesc bigStore).take 100 :=
  ⟨by decide, ((retention_bound bigStore).2.1 (by decide)).1⟩

end CvAdminWorker
